import Mathlib

/-!
Verification development for the rdma_bmon terminal bandwidth monitor
(src/main.py).

The Python source is shallowly embedded: counter values, rates and
elapsed times are rationals, a counter snapshot is a total function from
counter names to values, and the mutable objects of the source (the
`Diff` instance's `_d` dictionary, the `deque`, the `bars` frame buffer)
are threaded as explicit state.  Python list indexing (including
negative-index wraparound), `str * n` padding with a possibly negative
count (which yields the empty string), `deque(maxlen=...)` eviction and
the `ValueError` raised by `time.sleep` on a negative argument are
modelled by dedicated helper functions below.
-/

/-- Python list read `l[i]`: a nonnegative index counts from the front, a
negative index wraps from the back, and an out-of-range index gives
`none` (Python raises IndexError). -/
def pyGetL {α : Type} (l : List α) (i : Int) : Option α :=
  if 0 ≤ i then l[i.toNat]?
  else if (-i).toNat ≤ l.length then l[l.length - (-i).toNat]?
  else none

/-- Python list write `l[i] = x`: a negative index wraps from the back.
An out-of-range write raises IndexError in Python; it is modelled as a
no-op here and is unreachable under the index bounds established in the
theorems below. -/
def pySetL {α : Type} (l : List α) (i : Int) (x : α) : List α :=
  if 0 ≤ i then l.set i.toNat x
  else if (-i).toNat ≤ l.length then l.set (l.length - (-i).toNat) x
  else l

/-! ## Rate Computer (class `Diff`, src/main.py lines 60-68) -/

/-- The `Diff` instance's `_d` dictionary starts empty (line 63). -/
def diffInit : String → Option ℚ := fun _ => none

/-- One call of `Diff.feed` (lines 65-68): returns the per-field diff
`vals[k] - self._d.get(k, vals[k])` together with the new `_d`
dictionary `{k: vals[k] for k in self._fields}`. -/
def diffFeed (fields : List String) (st : String → Option ℚ) (vals : String → ℚ) :
    List (String × ℚ) × (String → Option ℚ) :=
  (fields.map (fun k => (k, vals k - ((st k).getD (vals k)))),
   fun k => if fields.contains k then some (vals k) else none)

/-- Feeding a list of snapshots through one `Diff` instance, collecting
the returned diffs. -/
def diffRun (fields : List String) (st : String → Option ℚ) :
    List (String → ℚ) → List (List (String × ℚ))
  | [] => []
  | v :: vs => (diffFeed fields st v).1 :: diffRun fields (diffFeed fields st v).2 vs

/-- The tracked field set (src/main.py lines 96-97). -/
def trackedFields : List String :=
  ["port_rcv_data", "port_xmit_data", "port_rcv_packets", "port_xmit_packets"]

/-- Python `str.endswith`, computed on the character lists. -/
def pyEndsWith (s tail : String) : Bool := tail.toList.isSuffixOf s.toList

/-- Byte-count fields (names ending in `_data`) are multiplied by 4
(line 117); packet-count fields are not scaled. -/
def fieldMult (k : String) : ℚ := if pyEndsWith k "_data" then 4 else 1

/-- Line 117: `v*4 if k.endswith('_data') else v`. -/
def scaleBytes (s : String → ℚ) : String → ℚ :=
  fun k => if pyEndsWith k "_data" then s k * 4 else s k

/-- Line 118: `v * (1/interval)` with the configured nominal interval. -/
def scaleInterval (interval : ℚ) (s : String → ℚ) : String → ℚ :=
  fun k => s k * (1 / interval)

/-- The rate pipeline of the main loop (lines 116-119): each raw
snapshot is byte-scaled, multiplied by `1/interval`, and fed to the
`Diff` instance; the n-th element is the rate sample reported at the
n-th tick. -/
def mainRates (interval : ℚ) (snaps : List (String → ℚ)) : List (List (String × ℚ)) :=
  diffRun trackedFields diffInit (snaps.map (fun s => scaleInterval interval (scaleBytes s)))

/-- Modelled from the spec: the rate that claim C1 asserts the program
reports — the counter delta (after byte-width scaling) divided by the
actual wall-clock time elapsed between the two reads.  The source never
measures that elapsed time, so this definition follows the spec's words
and is compared against `mainRates`. -/
def specWallClockRate (prev cur : String → ℚ) (tPrev tCur : ℚ) (k : String) : ℚ :=
  (scaleBytes cur k - scaleBytes prev k) / (tCur - tPrev)

/-! ## History Window (`deque(maxlen=cols//2-1)`, lines 98 and 138) -/

/-- One `deque.append` on a deque with `maxlen`: the new element is
appended and, if the deque would exceed `maxlen`, the oldest elements
are evicted from the front. -/
def dequePush {α : Type} (maxlen : Nat) (q : List α) (x : α) : List α :=
  let q' := q ++ [x]
  if maxlen < q'.length then q'.drop (q'.length - maxlen) else q'

/-- Appending a whole list of samples to an initially empty bounded
deque. -/
def dequeFold {α : Type} (maxlen : Nat) (xs : List α) : List α :=
  xs.foldl (dequePush maxlen) []

/-! ## Bar Scaler (lines 143-155) -/

/-- Python `max` over a list; `max` of an empty list raises ValueError
in Python, which is unreachable in the source (a sample is appended to
the queue before the series is read), so the empty case is given the
junk value 0. -/
def pyMax : List ℚ → ℚ
  | [] => 0
  | x :: xs => xs.foldl max x

/-- Lines 144-147 (and 151-154): `factor = height / max(series)`, with
the `ZeroDivisionError` handler making the factor 0 when the maximum is
zero. -/
def scaleFactor (height : Nat) (ys : List ℚ) : ℚ :=
  if pyMax ys = 0 then 0 else (height : ℚ) / pyMax ys

/-- Lines 148 and 155: `[x*factor for x in reversed(series)]`. -/
def scaleSeries (height : Nat) (ys : List ℚ) : List ℚ :=
  ys.reverse.map (fun x => x * scaleFactor height ys)

/-- The nine-glyph block table (line 81). -/
def blockChars : List Char := [' ', '▁', '▂', '▃', '▄', '▅', '▆', '▇', '█']

/-- Python `val % 1` for a rational value: the fractional part
`val - floor(val)`, which lies in `[0, 1)`. -/
def pyMod1 (v : ℚ) : ℚ := v - ⌊v⌋

/-- Line 163: `part_height = math.floor(remainder_height * 8)`. -/
def partHeight (v : ℚ) : Int := ⌊pyMod1 v * 8⌋

/-- Line 164: `part_char = block[part_height]`, with Python indexing;
the `getD` default is unreachable because `partHeight` always lies in
`[0, 7]` (theorem below). -/
def partChar (v : ℚ) : Char := (pyGetL blockChars (partHeight v)).getD '?'

/-- Lines 166-172: the glyph written at plot row `j` (counted from the
bottom of the chart) for the scaled value `v`: rows below the whole
height get `block[-1]` (the full block), the row at the whole height
gets the partial glyph, rows above get `block[0]` (the space). -/
def colCell (v : ℚ) (j : Nat) : Char :=
  if (j : Int) < ⌊v⌋ then (pyGetL blockChars (-1)).getD '?'
  else if (j : Int) = ⌊v⌋ then partChar v
  else (pyGetL blockChars 0).getD '?'

/-! ## Frame Composer (lines 124-205)

A rendered character cell is a list of `Cell` tokens: `Cell.vis c` is a
visible character and `Cell.esc n` is one ANSI escape sequence of raw
length `n` (the SGR sequences of lines 100-103, exactly what the
`ansi_escape` regex of line 105 strips).  Python `len` corresponds to
`pyLenC` (raw characters) and the source's `slen` (line 107) to `slen`
(visible characters only). -/

inductive Cell where
  | vis (c : Char)
  | esc (raw : Nat)
deriving DecidableEq

/-- Raw character count of a token, as Python `len` sees it. -/
def cellRaw : Cell → Nat
  | .vis _ => 1
  | .esc n => n

/-- Visible width of a token: escape sequences have width 0. -/
def cellVis : Cell → Nat
  | .vis _ => 1
  | .esc _ => 0

/-- Python `len` of a styled string. -/
def pyLenC (s : List Cell) : Nat := (s.map cellRaw).sum

/-- The source's `slen` (line 107-108): length after stripping ANSI
escape sequences, i.e. the visual width. -/
def slen (s : List Cell) : Nat := (s.map cellVis).sum

/-- A plain string as styled text. -/
def visStr (s : List Char) : List Cell := s.map Cell.vis

/-- `'\x1b[31m'` (RED, line 100): 5 raw characters, zero width. -/
def escRED : Cell := Cell.esc 5

/-- `'\x1b[32m'` (GREEN, line 101). -/
def escGREEN : Cell := Cell.esc 5

/-- `'\x1b[33m'` (YELLOW, line 102). -/
def escYELLOW : Cell := Cell.esc 5

/-- `'\x1b[0m'` (CC, the reset, line 103): 4 raw characters. -/
def escReset : Cell := Cell.esc 4

/-- Python `' ' * n` for `n` possibly negative is handled by callers
passing a truncated subtraction. -/
def spacesC (n : Nat) : List Cell := List.replicate n (Cell.vis ' ')

/-- Python `f'{s:<w}'`. -/
def pyLJust (w : Nat) (s : List Char) : List Char :=
  s ++ List.replicate (w - s.length) ' '

/-- Python `f'{s:>w}'`. -/
def pyRJust (w : Nat) (s : List Char) : List Char :=
  List.replicate (w - s.length) ' ' ++ s

/-- The header text of line 130. -/
def headerText : List Cell :=
  [escYELLOW] ++ visStr (pyLJust 28 "Interface".toList) ++ [escReset] ++
  visStr " │ ".toList ++
  [escRED] ++ visStr (pyLJust 10 "RX bps".toList) ++ [Cell.vis ' '] ++
  visStr (pyRJust 10 "pps".toList) ++ [escReset] ++
  visStr " │ ".toList ++
  [escGREEN] ++ visStr (pyLJust 10 "TX bps".toList) ++ [Cell.vis ' '] ++
  visStr (pyRJust 10 "pps".toList) ++ [escReset]

/-- The data text of line 132; the four human-formatted rate strings
(produced by `sizeof_fmt` / `unit_fmt` from floating-point values) enter
as parameters, since only their lengths matter for the frame geometry. -/
def dataText (nic r1 p1 t1 p2 : List Char) : List Cell :=
  [escYELLOW] ++ visStr (pyLJust 28 nic) ++ [escReset] ++
  visStr " │ ".toList ++
  [escRED] ++ visStr (pyRJust 10 r1) ++ [Cell.vis ' '] ++
  visStr (pyRJust 10 p1) ++ [escReset] ++
  visStr " │ ".toList ++
  [escGREEN] ++ visStr (pyRJust 10 t1) ++ [Cell.vis ' '] ++
  visStr (pyRJust 10 p2) ++ [escReset]

/-- The vertical border glyph `box[4]`. -/
def vbarC : Cell := Cell.vis '┃'

/-- Line 125: `box[0] + box[5]*(cols-2) + box[1]`. -/
def topBorder (cols : Nat) : List Cell :=
  [Cell.vis '┏'] ++ List.replicate (cols - 2) (Cell.vis '━') ++ [Cell.vis '┓']

/-- Line 205: `box[2] + box[5]*(cols-2) + box[3]`. -/
def bottomBorder (cols : Nat) : List Cell :=
  [Cell.vis '┗'] ++ List.replicate (cols - 2) (Cell.vis '━') ++ [Cell.vis '┛']

/-- Lines 131 and 133: `box[4] + text + ' '*(cols-2-slen(text)) + box[4]`. -/
def textLine (cols : Nat) (text : List Cell) : List Cell :=
  [vbarC] ++ text ++ spacesC (cols - 2 - slen text) ++ [vbarC]

/-- The separator text of line 135. -/
def sepText : List Cell :=
  visStr (List.replicate 29 '─') ++ [Cell.vis '┴'] ++
  visStr (List.replicate 23 '─') ++ [Cell.vis '┴'] ++
  visStr (List.replicate 23 '─')

/-- Line 136: `box[4] + text + '─'*(cols-2-len(text)) + box[4]` — note
the raw `len`, not `slen`. -/
def sepLine (cols : Nat) : List Cell :=
  [vbarC] ++ sepText ++ List.replicate (cols - 2 - pyLenC sepText) (Cell.vis '─') ++ [vbarC]

/-- Line 200: `box[4] + line + ' '*(cols-2-len(line)) + box[4]` where
`line = ''.join(b)` — again the raw `len`. -/
def barLine (cols : Nat) (row : List (List Cell)) : List Cell :=
  [vbarC] ++ row.flatten ++ spacesC (cols - 2 - pyLenC row.flatten) ++ [vbarC]

/-- Line 203: `box[4] + ' '*(cols-2) + box[4]`. -/
def padLine (cols : Nat) : List Cell :=
  [vbarC] ++ spacesC (cols - 2) ++ [vbarC]

/-- Lines 166-172 for one column: for each `j` in `range(height)` the
row `bars[height-j-1]` gets its cell at Python index `i` replaced by the
glyph for plot row `j`. -/
def writeVal (height : Nat) (i : Int) (v : ℚ) (bars : List (List (List Cell))) :
    List (List (List Cell)) :=
  (List.range height).foldl
    (fun bs j =>
      bs.set (height - j - 1) (pySetL (bs.getD (height - j - 1) []) i [Cell.vis (colCell v j)]))
    bars

/-- Lines 159-172 (and 175-188): `for i, val in enumerate(series): i =
offset - i; ...` — the n-th value of the scaled series is drawn at
Python column index `offset - n`. -/
def writeSeries (height : Nat) (offset : Int) (ys : List ℚ)
    (bars : List (List (List Cell))) : List (List (List Cell)) :=
  ys.enum.foldl (fun bs iv => writeVal height (offset - (iv.1 : Int)) iv.2 bs) bars

/-- Lines 192-196 for one row: colour the leftmost cell red, close the
red span before the centre gutter, blank the gutter cell, colour the
cell after the gutter green and close the green span at the last cell
(`len(bars[0])-1` raw cells wide, passed in as `w0`). -/
def colorizeRow (off w0 : Nat) (row : List (List Cell)) : List (List Cell) :=
  let r1 := row.set 0 (escRED :: row.getD 0 [])
  let r2 := r1.set (off - 1) (r1.getD (off - 1) [] ++ [escReset])
  let r3 := r2.set off [Cell.vis ' ']
  let r4 := r3.set (off + 1) (escGREEN :: r3.getD (off + 1) [])
  r4.set (w0 - 1) (r4.getD (w0 - 1) [] ++ [escReset])

/-- Lines 190-196: colouring every bar row, with `offset =
(cols-2)//2 - 1` supplied by the caller and `len(bars[0])` read from the
current buffer. -/
def colorize (height off : Nat) (bars : List (List (List Cell))) :
    List (List (List Cell)) :=
  (List.range height).foldl
    (fun bs j => bs.set j (colorizeRow off ((bs.getD 0 []).length) (bs.getD j [])))
    bars

/-- One full frame (lines 124-205), as the list of rendered lines.  The
interface name and the four formatted rate strings enter as plain
character lists; `yq` and `y2q` are the transmit and receive series read
from the history window. -/
def frameLines (cols rows : Nat) (nic r1 p1 t1 p2 : List Char) (yq y2q : List ℚ) :
    List (List Cell) :=
  let lines0 : List (List Cell) :=
    [topBorder cols, textLine cols headerText,
     textLine cols (dataText nic r1 p1 t1 p2), sepLine cols]
  let height := rows - lines0.length - 1
  let y := scaleSeries height yq
  let y2 := scaleSeries height y2q
  let barsInit : List (List (List Cell)) :=
    List.replicate height (List.replicate (cols - 2) [Cell.vis ' '])
  let bars1 := writeSeries height ((cols : Int) - 2 - 1) y barsInit
  let bars2 := writeSeries height ((((cols - 2) / 2 : Nat) : Int) - 2) y2 bars1
  let bars3 := colorize height ((cols - 2) / 2 - 1) bars2
  let lines1 := lines0 ++ bars3.map (barLine cols)
  let lines2 := lines1 ++ List.replicate (rows - 2 - lines1.length) (padLine cols)
  lines2 ++ [bottomBorder cols]

/-! ## Periodic production (CounterReader.periodic, lines 26-34) -/

/-- CPython `time.sleep`: a negative argument raises
`ValueError: sleep length must be non-negative`. -/
def pySleep (t : ℚ) : Except String Unit :=
  if t < 0 then Except.error "ValueError: sleep length must be non-negative"
  else Except.ok ()

/-- One inter-tick pause of `CounterReader.periodic` (lines 30-34):
`time_to_sleep = seconds - (end-start)`; a warning is printed when that
is negative; then `time.sleep(time_to_sleep)` is called.  Returns the
printed warnings and the outcome of the sleep call. -/
def periodicTick (seconds elapsed : ℚ) : List String × Except String Unit :=
  let timeToSleep := seconds - elapsed
  let warnings := if timeToSleep < 0 then ["Warning: time_to_sleep negative"] else []
  (warnings, pySleep timeToSleep)

/-! ## Counter Source construction (CounterReader.__init__, lines 16-24) -/

/-- The filesystem as the constructor observes it: `listdir` enumerates
a directory and `isdir` answers `os.path.isdir` for an arbitrary path
string (a bare name is resolved against the process working
directory). -/
structure FS where
  listdir : String → List String
  isdir : String → Bool

/-- `os.path.join(path, f)`. -/
def pathJoin (p f : String) : String := p ++ "/" ++ f

/-- `CounterReader.__init__` (lines 16-24): for every entry `f` of every
root, skip it when `os.path.isdir(f)` — note: the bare name `f`, not the
joined path — is a directory, fail on a duplicate name, and otherwise
record `f ↦ os.path.join(path, f)`. -/
def counterInit (fs : FS) (paths : List String) : Except String (List (String × String)) :=
  paths.foldlM
    (fun acc path =>
      (fs.listdir path).foldlM
        (fun acc2 f =>
          if fs.isdir f then Except.ok acc2
          else if (acc2.lookup f).isSome then Except.error "Counter-Name not unique"
          else Except.ok (acc2 ++ [(f, pathJoin path f)]))
        acc)
    []

/-! ## Counter reads (CounterReader._read and _read_all, lines 36-41) -/

/-- The contents of a counter file, as far as `eval` is concerned: a
single integer literal, an integer-valued compound expression such as
`a+b`, or text that is not a valid expression at all. -/
inductive FileContent where
  | intLit (n : Int)
  | addExpr (a b : Int)
  | malformed
deriving DecidableEq

/-- Python `eval` on the file text (line 41): a literal or a compound
expression evaluates to its value; invalid text raises a SyntaxError. -/
def pyEvalFile : FileContent → Except String Int
  | .intLit n => Except.ok n
  | .addExpr a b => Except.ok (a + b)
  | .malformed => Except.error "SyntaxError: invalid syntax"

/-- `CounterReader._read` (lines 39-41): open the file — a missing file
raises FileNotFoundError — and `eval` its contents. -/
def readCounter (files : String → Option FileContent) (path : String) : Except String Int :=
  match files path with
  | none => Except.error ("FileNotFoundError: " ++ path)
  | some c => pyEvalFile c

/-- `CounterReader._read_all` (lines 36-37): the dict comprehension
reads every counter left to right; the first exception propagates. -/
def readAll (files : String → Option FileContent) :
    List (String × String) → Except String (List (String × Int))
  | [] => Except.ok []
  | kv :: rest =>
    match readCounter files kv.2 with
    | Except.error e => Except.error e
    | Except.ok n =>
      match readAll files rest with
      | Except.error e => Except.error e
      | Except.ok vs => Except.ok ((kv.1, n) :: vs)

/-- Scaling every value of a snapshot by a constant. -/
def scaleSnap (c : ℚ) (s : String → ℚ) : String → ℚ := fun k => c * s k

/-- Scaling every stored baseline of a `_d` dictionary by a constant. -/
def scaleSt (c : ℚ) (st : String → Option ℚ) : String → Option ℚ :=
  fun k => (st k).map (fun x => c * x)

/-- A well-formed bar row: `w` cells, each with exactly one visible
character. -/
def rowOK (w : Nat) (row : List (List Cell)) : Prop :=
  row.length = w ∧ ∀ c ∈ row, slen c = 1

/-- A well-formed bar buffer: `h` rows, all well formed. -/
def barsOK (w h : Nat) (bars : List (List (List Cell))) : Prop :=
  bars.length = h ∧ ∀ row ∈ bars, rowOK w row

/-- Concrete filesystem for claim C4: the root `/r` contains a
subdirectory `sub` and a plain file `c1`; the working directory contains
no entry named `sub`, so `os.path.isdir("sub")` is false. -/
def exFS : FS where
  listdir := fun p => if p = "/r" then ["sub", "c1"] else []
  isdir := fun p => p == "/r/sub"

/-- Concrete file store for claim C5: the counter file `/r/c` contains
the expression `1+1`, which is not a single integer literal. -/
def exFiles : String → Option FileContent :=
  fun p => if p = "/r/c" then some (FileContent.addExpr 1 1) else none

/-- Concrete file store for claim C5: the counter file `/r/c` contains
text that is not a valid expression. -/
def exFilesBad : String → Option FileContent :=
  fun p => if p = "/r/c" then some FileContent.malformed else none


/-! ## Theorems -/


/-- C4: at construction, for every root directory, entries that are
subdirectories of that root are excluded from the counter mapping.  The
code checks `os.path.isdir(f)` on the bare entry name — resolved against
the working directory — instead of the joined path, so a subdirectory of
the root is recorded as a counter whenever the working directory has no
directory of the same name: on the filesystem `exFS` the subdirectory
`/r/sub` ends up in the mapping. -/
theorem c4_subdir_included :
    counterInit exFS ["/r"] = Except.ok [("sub", "/r/sub"), ("c1", "/r/c1")] ∧
    exFS.isdir (pathJoin "/r" "sub") = true := by
  constructor
  · rfl
  · rfl

/-- C2: the producer is claimed to sleep `max(0, period - elapsed)` and
to proceed with only a warning when the elapsed time exceeds the period.
The code does print the warning, but then passes the negative duration
straight to `time.sleep`, which raises ValueError: at `seconds = 1`,
`elapsed = 3/2` the tick emits the warning and then fails. -/
theorem c2_negative_sleep_raises :
    periodicTick 1 (3/2) =
      (["Warning: time_to_sleep negative"],
       Except.error "ValueError: sleep length must be non-negative") := by
  norm_num [periodicTick, pySleep]


/-- C5 counterexample: `read_all` does not parse counter files strictly
as single integer values and does not fail with a `CounterReadError`
naming the counter.  The file containing `1+1` is happily evaluated to
`2` (so arbitrary file content is evaluated, not rejected), and an
unparseable file propagates a bare `SyntaxError` that does not name the
counter `c`. -/
theorem c5_counterexample :
    readAll exFiles [("c", "/r/c")] = Except.ok [("c", 2)] ∧
    readAll exFilesBad [("c", "/r/c")] = Except.error "SyntaxError: invalid syntax" ∧
    "SyntaxError: invalid syntax" ≠ "CounterReadError: c" := by
  refine ⟨rfl, rfl, ?_⟩
  decide

/-- Unfolding `_read` on a missing file. -/
theorem readCounter_missing (files : String → Option FileContent) (p : String)
    (h : files p = none) :
    readCounter files p = Except.error ("FileNotFoundError: " ++ p) := by
  unfold readCounter
  rw [h]

/-- Unfolding `_read` on an existing file: it evaluates the contents. -/
theorem readCounter_some (files : String → Option FileContent) (p : String)
    (c : FileContent) (h : files p = some c) :
    readCounter files p = pyEvalFile c := by
  unfold readCounter
  rw [h]

/-- One `_read` succeeds exactly when the file exists and its contents
form a valid expression. -/
theorem readCounter_ok_iff (files : String → Option FileContent) (p : String) :
    (∃ n, readCounter files p = Except.ok n) ↔
      ∃ c, files p = some c ∧ c ≠ FileContent.malformed := by
  rcases hf : files p with _ | c
  · rw [readCounter_missing files p hf]
    simp
  · rw [readCounter_some files p c hf]
    rcases c with n | ⟨a, b⟩ | _ <;> simp [pyEvalFile]

/-- `_read_all` succeeds exactly when every counter's file exists and
holds a valid expression. -/
theorem readAll_ok_iff (files : String → Option FileContent) :
    ∀ counters : List (String × String),
      (∃ vs, readAll files counters = Except.ok vs) ↔
        ∀ kv ∈ counters, ∃ c, files kv.2 = some c ∧ c ≠ FileContent.malformed := by
  intro counters
  induction counters with
  | nil => simp [readAll]
  | cons kv rest ih =>
    rw [List.forall_mem_cons, ← ih, ← readCounter_ok_iff]
    constructor
    · rintro ⟨vs, hvs⟩
      rw [show readAll files (kv :: rest) =
            (match readCounter files kv.2 with
             | Except.error e => Except.error e
             | Except.ok n =>
               match readAll files rest with
               | Except.error e => Except.error e
               | Except.ok ws => Except.ok ((kv.1, n) :: ws)) from rfl] at hvs
      rcases h1 : readCounter files kv.2 with e | n
      · rw [h1] at hvs
        simp at hvs
      · rw [h1] at hvs
        rcases h2 : readAll files rest with e | ws
        · rw [h2] at hvs
          simp at hvs
        · exact ⟨⟨n, rfl⟩, ⟨ws, rfl⟩⟩
    · rintro ⟨⟨n, h1⟩, ⟨ws, h2⟩⟩
      refine ⟨(kv.1, n) :: ws, ?_⟩
      rw [show readAll files (kv :: rest) =
            (match readCounter files kv.2 with
             | Except.error e => Except.error e
             | Except.ok n =>
               match readAll files rest with
               | Except.error e => Except.error e
               | Except.ok ws => Except.ok ((kv.1, n) :: ws)) from rfl, h1, h2]

/-- C5 amended: `read_all` evaluates each counter file's contents as a
general expression — any integer-valued expression is accepted with its
evaluated value — and succeeds exactly when every counter's file exists
and is a valid expression; failures propagate the underlying error
rather than a `CounterReadError`. -/
theorem c5_amended (files : String → Option FileContent) (counters : List (String × String)) :
    ((∃ vs, readAll files counters = Except.ok vs) ↔
      ∀ kv ∈ counters, ∃ c, files kv.2 = some c ∧ c ≠ FileContent.malformed) ∧
    (∀ path a b, files path = some (FileContent.addExpr a b) →
      readCounter files path = Except.ok (a + b)) := by
  refine ⟨readAll_ok_iff files counters, ?_⟩
  intro path a b hf
  simp [readCounter, hf, pyEvalFile]

/-- C5 amended witness: on the concrete store whose file `/r/c` holds
the expression `1+1`, `_read` succeeds with the evaluated value 2. -/
theorem c5_amended_witness :
    exFiles "/r/c" = some (FileContent.addExpr 1 1) ∧
    readCounter exFiles "/r/c" = Except.ok 2 :=
  ⟨rfl, (c5_amended exFiles [("c", "/r/c")]).2 "/r/c" 1 1 rfl⟩

/-- C7: the first call to `Diff.feed` yields rate 0 for every tracked
field, because `self._d.get(k, vals[k])` falls back to the current value
when no baseline exists. -/
theorem c7_first_feed_zero (fields : List String) (vals : String → ℚ) :
    ∀ p ∈ (diffFeed fields diffInit vals).1, p.2 = 0 := by
  intro p hp
  obtain ⟨k, _, rfl⟩ := List.mem_map.1 hp
  simp [diffInit]

/-- C7 witness: a concrete first feed over one tracked field. -/
theorem c7_first_feed_zero_witness :
    ("port_rcv_data", (0 : ℚ)).2 = 0 ∧
    ("port_rcv_data", (0 : ℚ)) ∈ (diffFeed ["port_rcv_data"] diffInit (fun _ => (5 : ℚ))).1 :=
  ⟨c7_first_feed_zero ["port_rcv_data"] (fun _ => (5 : ℚ)) ("port_rcv_data", 0)
      (by simp [diffFeed, diffInit]),
   by simp [diffFeed, diffInit]⟩

/-- One bounded-deque append, written as a single drop: the kept part is
always the last `maxlen` elements of `q ++ [x]`. -/
theorem dequePush_eq_drop {α : Type} (maxlen : Nat) (q : List α) (x : α) :
    dequePush maxlen q x = (q ++ [x]).drop ((q.length + 1) - maxlen) := by
  unfold dequePush
  by_cases h : maxlen < (q ++ [x]).length
  · simp only [h, if_true]
    simp
  · simp only [h, if_false]
    have hlen : (q ++ [x]).length = q.length + 1 := by simp
    have : q.length + 1 - maxlen = 0 := by omega
    rw [this, List.drop_zero]

/-- Folding pushes into a bounded deque keeps exactly the most recent
`maxlen` elements. -/
theorem dequeFoldAux {α : Type} (maxlen : Nat) :
    ∀ (xs : List α) (q : List α), q.length ≤ maxlen →
      xs.foldl (dequePush maxlen) q = (q ++ xs).drop ((q.length + xs.length) - maxlen) := by
  intro xs
  induction xs with
  | nil =>
    intro q hq
    simp only [List.foldl_nil, List.append_nil, List.length_nil]
    rw [show q.length + 0 - maxlen = 0 by omega, List.drop_zero]
  | cons x xs ih =>
    intro q hq
    have hpush : dequePush maxlen q x = (q ++ [x]).drop ((q.length + 1) - maxlen) :=
      dequePush_eq_drop maxlen q x
    have hlen : (dequePush maxlen q x).length = (q.length + 1) - ((q.length + 1) - maxlen) := by
      rw [hpush, List.length_drop]
      simp
    have hle : (dequePush maxlen q x).length ≤ maxlen := by omega
    rw [List.foldl_cons, ih (dequePush maxlen q x) hle, hpush]
    rw [show q ++ x :: xs = (q ++ [x]) ++ xs by simp]
    generalize hL : q ++ [x] = L
    have hLlen : L.length = q.length + 1 := by rw [← hL]; simp
    rw [List.drop_append_eq_append_drop, List.drop_append_eq_append_drop, List.drop_drop]
    congr 1
    · congr 1
      rw [List.length_drop]
      simp only [List.length_cons]
      omega
    · congr 1
      simp only [List.length_cons]
      omega

/-- C6: the History Window capacity is `cols//2 - 1`, and after
`capacity + k` appends the deque holds exactly the most recent
`capacity` samples in arrival order. -/
theorem c6_window_capacity {α : Type} (cols k : Nat) (xs : List α)
    (hc : 2 ≤ cols) (hlen : xs.length = (cols / 2 - 1) + k) :
    dequeFold (cols / 2 - 1) xs = xs.drop k ∧
    (dequeFold (cols / 2 - 1) xs).length = cols / 2 - 1 := by
  have h := dequeFoldAux (cols / 2 - 1) xs [] (by simp)
  simp only [List.length_nil, Nat.zero_add, List.nil_append] at h
  have hdrop : xs.length - (cols / 2 - 1) = k := by omega
  rw [hdrop] at h
  have h2 : dequeFold (cols / 2 - 1) xs = xs.drop k := h
  refine ⟨h2, ?_⟩
  rw [h2, List.length_drop]
  omega

/-- C6 witness: capacity 4 (cols = 10), six pushes keep the last four. -/
theorem c6_window_capacity_witness :
    (2 ≤ 10 ∧ ([0, 1, 2, 3, 4, 5] : List Nat).length = (10 / 2 - 1) + 2) ∧
    dequeFold (10 / 2 - 1) ([0, 1, 2, 3, 4, 5] : List Nat) = [2, 3, 4, 5] :=
  ⟨⟨by decide, by decide⟩,
   by
    have h := (c6_window_capacity 10 2 ([0, 1, 2, 3, 4, 5] : List Nat)
      (by decide) (by decide)).1
    simpa using h⟩

/-- Python `v % 1` is the fractional part. -/
theorem pyMod1_eq_fract (v : ℚ) : pyMod1 v = Int.fract v := rfl

/-- The partial-glyph index is never negative. -/
theorem partHeight_nonneg (v : ℚ) : 0 ≤ partHeight v :=
  Int.floor_nonneg.mpr
    (mul_nonneg (by rw [pyMod1_eq_fract]; exact Int.fract_nonneg v) (by norm_num))

/-- The partial-glyph index never reaches the full-block index 8. -/
theorem partHeight_le_seven (v : ℚ) : partHeight v ≤ 7 := by
  have h1 : pyMod1 v < 1 := by
    rw [pyMod1_eq_fract]
    exact Int.fract_lt_one v
  have hlt : pyMod1 v * 8 < ((8 : Int) : ℚ) := by
    push_cast
    nlinarith
  have hfl : ⌊pyMod1 v * 8⌋ < (8 : Int) := Int.floor_lt.mpr hlt
  simp only [partHeight]
  omega

/-- C8: with the source's scaling factor `height / max(series)` (0 when
the maximum is 0), an all-zero-maximum series scales every value to
whole height 0 and partial index 0, and any value equal to a nonzero
maximum scales to exactly the available height, with no overshoot. -/
theorem c8_bar_scaler (h : Nat) (ys : List ℚ) (v : ℚ) (hne : ys ≠ []) (hv : v ∈ ys) :
    (pyMax ys = 0 → ⌊v * scaleFactor h ys⌋ = 0 ∧ partHeight (v * scaleFactor h ys) = 0) ∧
    (v = pyMax ys → pyMax ys ≠ 0 → ⌊v * scaleFactor h ys⌋ = (h : Int)) := by
  constructor
  · intro h0
    simp only [scaleFactor, if_pos h0, mul_zero]
    refine ⟨Int.floor_zero, ?_⟩
    simp [partHeight, pyMod1]
  · intro hveq hne0
    simp only [scaleFactor, if_neg hne0]
    rw [hveq, mul_comm, div_mul_cancel₀ _ hne0]
    exact Int.floor_natCast h

/-- C8 witness: series `[2, 1]` against height 10: the maximal value 2
scales to exactly 10. -/
theorem c8_bar_scaler_witness :
    (([2, 1] : List ℚ) ≠ [] ∧ (2 : ℚ) ∈ ([2, 1] : List ℚ)) ∧
    ⌊(2 : ℚ) * scaleFactor 10 [2, 1]⌋ = (10 : Int) :=
  ⟨⟨by decide, by norm_num⟩,
   (c8_bar_scaler 10 [2, 1] 2 (by decide) (by norm_num)).2 (by decide) (by decide)⟩

/-- C10: the block table has nine glyphs, the partial-glyph index always
lies in `[0, 7]` so indexing never goes out of range and never selects
the full block `block[8]` as a partial glyph, and a scaled value with a
negative floor renders an entirely empty column. -/
theorem c10_partial_glyph_safe (v : ℚ) :
    blockChars.length = 9 ∧
    (0 ≤ partHeight v ∧ partHeight v ≤ 7) ∧
    (pyGetL blockChars (partHeight v)).isSome = true ∧
    pyGetL blockChars (partHeight v) ≠ some '█' ∧
    (⌊v⌋ < 0 → ∀ j : Nat, colCell v j = ' ') := by
  have h0 : 0 ≤ partHeight v := partHeight_nonneg v
  have h7 : partHeight v ≤ 7 := partHeight_le_seven v
  have hcases : ∀ n : Int, 0 ≤ n → n ≤ 7 →
      (pyGetL blockChars n).isSome = true ∧ pyGetL blockChars n ≠ some '█' := by
    intro n hn0 hn7
    interval_cases n <;> exact ⟨by decide, by decide⟩
  refine ⟨rfl, ⟨h0, h7⟩, (hcases _ h0 h7).1, (hcases _ h0 h7).2, ?_⟩
  intro hneg j
  have hj : (0 : Int) ≤ (j : Int) := Int.natCast_nonneg j
  simp only [colCell]
  rw [if_neg (by omega), if_neg (by omega)]
  rfl

/-- C10 witness: the scaled value `-3/2` has a negative floor and
renders an empty cell at plot row 0, with its partial index in range. -/
theorem c10_partial_glyph_safe_witness :
    (0 ≤ partHeight (-(3 : ℚ)/2) ∧ partHeight (-(3 : ℚ)/2) ≤ 7) ∧
    colCell (-(3 : ℚ)/2) 0 = ' ' :=
  ⟨(c10_partial_glyph_safe (-(3 : ℚ)/2)).2.1,
   (c10_partial_glyph_safe (-(3 : ℚ)/2)).2.2.2.2 (by norm_num) 0⟩


/-- The diff part of `feed` is homogeneous: feeding a scaled snapshot
from a scaled baseline scales the diff. -/
theorem diffFeed_scale_fst (c : ℚ) (fields : List String) (st : String → Option ℚ)
    (v : String → ℚ) :
    (diffFeed fields (scaleSt c st) (scaleSnap c v)).1 =
      (diffFeed fields st v).1.map (fun p => (p.1, c * p.2)) := by
  simp only [diffFeed, List.map_map]
  refine congrArg (fun f => List.map f fields) (funext fun k => ?_)
  simp only [Function.comp, scaleSt, scaleSnap]
  cases hst : st k with
  | none => simp
  | some p =>
    rw [Prod.mk.injEq]
    refine ⟨rfl, ?_⟩
    simp only [Option.map_some', Option.getD_some]
    ring

/-- The state part of `feed` commutes with scaling. -/
theorem diffFeed_scale_snd (c : ℚ) (fields : List String) (st : String → Option ℚ)
    (v : String → ℚ) :
    (diffFeed fields (scaleSt c st) (scaleSnap c v)).2 = scaleSt c (diffFeed fields st v).2 := by
  funext k
  simp only [diffFeed, scaleSt, scaleSnap]
  by_cases h : fields.contains k = true <;> simp [h]

/-- The empty baseline is fixed by scaling. -/
theorem scaleSt_init (c : ℚ) : scaleSt c diffInit = diffInit := by
  funext k
  rfl

/-- Running a whole scaled snapshot sequence from a scaled baseline
scales every diff of every step. -/
theorem diffRun_scale (c : ℚ) (fields : List String) :
    ∀ (snaps : List (String → ℚ)) (st : String → Option ℚ),
      diffRun fields (scaleSt c st) (snaps.map (scaleSnap c)) =
        (diffRun fields st snaps).map (fun d => d.map (fun p => (p.1, c * p.2))) := by
  intro snaps
  induction snaps with
  | nil => intro st; rfl
  | cons v vs ih =>
    intro st
    simp only [List.map_cons, diffRun]
    rw [diffFeed_scale_fst, diffFeed_scale_snd, ih (diffFeed fields st v).2]

/-- C9: `Diff.feed` is homogeneous in its input values — multiplying
every snapshot value by a constant `c` multiplies every reported diff of
every step by `c`; this is what makes scaling the cumulative values by
the byte-width multiplier and `1/interval` before differencing
equivalent to scaling the deltas afterwards. -/
theorem c9_feed_homogeneous (c : ℚ) (fields : List String) (snaps : List (String → ℚ)) :
    diffRun fields diffInit (snaps.map (scaleSnap c)) =
      (diffRun fields diffInit snaps).map (fun d => d.map (fun p => (p.1, c * p.2))) := by
  nth_rewrite 1 [← scaleSt_init c]
  exact diffRun_scale c fields snaps diffInit

/-- `getD` through `map` at an in-range index. -/
theorem getD_map_of_lt {α β : Type} (f : α → β) (l : List α) (n : Nat) (d : α) (d' : β)
    (hn : n < l.length) : (l.map f).getD n d' = f (l.getD n d) := by
  rw [List.getD_eq_getElem l d hn, List.getD_eq_getElem (l.map f) d' (by simpa using hn)]
  simp

/-- In `diffRun`, every output after the first is the plain difference
of the two adjacent snapshots on the tracked fields, independent of the
incoming baseline. -/
theorem diffRun_getD_succ (fields : List String) :
    ∀ (vs : List (String → ℚ)) (st : String → Option ℚ) (i : Nat), i + 1 < vs.length →
      (diffRun fields st vs).getD (i + 1) [] =
        fields.map (fun k =>
          (k, vs.getD (i + 1) (fun _ => 0) k - vs.getD i (fun _ => 0) k)) := by
  intro vs
  induction vs with
  | nil =>
    intro st i h
    simp at h
  | cons v rest ih =>
    intro st i h
    cases i with
    | zero =>
      cases rest with
      | nil => simp at h
      | cons v1 rest2 =>
        simp only [diffRun, List.getD_cons_succ, List.getD_cons_zero]
        simp only [diffFeed]
        refine List.map_congr_left (fun k hk => ?_)
        have hc : fields.contains k = true := List.elem_iff.mpr hk
        simp [hc, hk]
    | succ n =>
      simp only [diffRun, List.getD_cons_succ]
      exact ih (diffFeed fields st v).2 n (by simpa using h)

/-- Looking up a field in a diff built over the field list. -/
theorem lookup_map_pair (g : String → ℚ) :
    ∀ (fields : List String) (k : String), k ∈ fields →
      (fields.map (fun f => (f, g f))).lookup k = some (g k) := by
  intro fields
  induction fields with
  | nil =>
    intro k hk
    simp at hk
  | cons f rest ih =>
    intro k hk
    rcases List.mem_cons.1 hk with h | h
    · subst h
      simp [List.lookup]
    · by_cases hfk : k = f
      · subst hfk
        simp [List.lookup]
      · have hbeq : (k == f) = false := beq_eq_false_iff_ne.mpr hfk
        simp only [List.map_cons, List.lookup, hbeq]
        exact ih k h

/-- C1 amended: every reported rate after the first tick equals the
counter delta, times the byte-width multiplier, divided by the
configured nominal interval — the actual wall-clock time between reads
is never measured, so a delayed tick does distort the computed rate. -/
theorem c1_amended (interval : ℚ) (snaps : List (String → ℚ)) (i : Nat) (k : String)
    (hi : i + 1 < snaps.length) (hk : k ∈ trackedFields) :
    ((mainRates interval snaps).getD (i + 1) []).lookup k =
      some ((snaps.getD (i + 1) (fun _ => 0) k - snaps.getD i (fun _ => 0) k) *
        fieldMult k / interval) := by
  have hlen : i + 1 < (snaps.map (fun s => scaleInterval interval (scaleBytes s))).length := by
    simpa using hi
  rw [mainRates, diffRun_getD_succ trackedFields _ diffInit i hlen,
    lookup_map_pair _ trackedFields k hk]
  rw [getD_map_of_lt _ snaps (i + 1) (fun _ => 0) _ hi,
    getD_map_of_lt _ snaps i (fun _ => 0) _ (by omega)]
  congr 1
  simp only [scaleInterval, scaleBytes, fieldMult]
  cases hdata : pyEndsWith k "_data" <;> simp [hdata] <;> ring

/-- C1 amended witness: interval 1, counters going 0 to 2 on a byte
field: the second tick reports (2 - 0) * 4 / 1 = 8. -/
theorem c1_amended_witness :
    (0 + 1 < ([fun _ => (0 : ℚ), fun _ => (2 : ℚ)] : List (String → ℚ)).length ∧
      "port_rcv_data" ∈ trackedFields) ∧
    ((mainRates 1 [fun _ => (0 : ℚ), fun _ => (2 : ℚ)]).getD 1 []).lookup "port_rcv_data" =
      some 8 := by
  refine ⟨⟨by norm_num, by simp [trackedFields]⟩, ?_⟩
  have h := c1_amended 1 [fun _ => (0 : ℚ), fun _ => (2 : ℚ)] 0 "port_rcv_data"
    (by norm_num) (by simp [trackedFields])
  rw [h]
  have hd : pyEndsWith "port_rcv_data" "_data" = true := by decide
  simp only [List.getD_cons_succ, List.getD_cons_zero, fieldMult, hd, if_true]
  norm_num

/-- C1 counterexample: two ticks whose reads actually happened 2 seconds
apart (wall-clock times 0 and 2) with a configured interval of 1 second
and a packet counter going 0 to 1.  The claim's rate — delta divided by
the actual wall-clock elapsed time — is 1/2, but the program reports
delta times `1/interval`, i.e. 1: the reported rate is not the
wall-clock rate. -/
theorem c1_counterexample :
    ((mainRates 1 [fun _ => (0 : ℚ), fun _ => (1 : ℚ)]).getD 1 []).lookup "port_rcv_packets" =
      some 1 ∧
    specWallClockRate (fun _ => (0 : ℚ)) (fun _ => (1 : ℚ)) 0 2 "port_rcv_packets" = 1/2 ∧
    (1 : ℚ) ≠ 1/2 := by
  refine ⟨?_, ?_, by norm_num⟩
  · have h := c1_amended 1 [fun _ => (0 : ℚ), fun _ => (1 : ℚ)] 0 "port_rcv_packets"
      (by norm_num) (by simp [trackedFields])
    rw [h]
    have hd : pyEndsWith "port_rcv_packets" "_data" = false := by decide
    simp only [List.getD_cons_succ, List.getD_cons_zero, fieldMult, hd, Bool.false_eq_true,
      if_false]
    norm_num
  · have hd : pyEndsWith "port_rcv_packets" "_data" = false := by decide
    simp [specWallClockRate, scaleBytes, hd]

/-- slen distributes over cons. -/
theorem slen_cons (x : Cell) (s : List Cell) : slen (x :: s) = cellVis x + slen s := rfl

/-- pyLenC distributes over cons. -/
theorem pyLenC_cons (x : Cell) (s : List Cell) : pyLenC (x :: s) = cellRaw x + pyLenC s := rfl

/-- slen distributes over append. -/
theorem slen_append (a b : List Cell) : slen (a ++ b) = slen a + slen b := by
  simp [slen]

/-- The visual width never exceeds the raw length. -/
theorem slen_le_pyLenC (s : List Cell) : slen s ≤ pyLenC s := by
  induction s with
  | nil => exact Nat.le_refl 0
  | cons x xs ih =>
    rw [slen_cons, pyLenC_cons]
    have hx : cellVis x ≤ cellRaw x := by cases x <;> simp [cellVis, cellRaw]
    omega

/-- Plain text has visual width equal to its length. -/
theorem slen_visStr (s : List Char) : slen (visStr s) = s.length := by
  induction s with
  | nil => rfl
  | cons c cs ih =>
    show slen (Cell.vis c :: visStr cs) = cs.length + 1
    rw [slen_cons, ih]
    simp only [cellVis]
    omega

/-- Spaces have visual width equal to their count. -/
theorem slen_spacesC (n : Nat) : slen (spacesC n) = n := by
  induction n with
  | zero => rfl
  | succ m ih =>
    show slen (Cell.vis ' ' :: spacesC m) = m + 1
    rw [slen_cons, ih]
    simp only [cellVis]
    omega

/-- Replicated visible glyphs have visual width equal to their count. -/
theorem slen_replicate_vis (n : Nat) (c : Char) :
    slen (List.replicate n (Cell.vis c)) = n := by
  induction n with
  | zero => rfl
  | succ m ih =>
    rw [List.replicate_succ, slen_cons, ih]
    simp only [cellVis]
    omega

/-- Left justification to a width at least the content length. -/
theorem length_pyLJust (w : Nat) (s : List Char) (h : s.length ≤ w) :
    (pyLJust w s).length = w := by
  simp [pyLJust]
  omega

/-- Right justification to a width at least the content length. -/
theorem length_pyRJust (w : Nat) (s : List Char) (h : s.length ≤ w) :
    (pyRJust w s).length = w := by
  simp [pyRJust]
  omega

/-- A row of one-visible-character cells flattens to a line with one
visible character per cell. -/
theorem slen_flatten_ones (row : List (List Cell)) (h : ∀ c ∈ row, slen c = 1) :
    slen row.flatten = row.length := by
  induction row with
  | nil => rfl
  | cons c cs ih =>
    rw [List.flatten_cons, slen_append, h c (List.mem_cons_self c cs),
      ih (fun x hx => h x (List.mem_cons_of_mem c hx)), List.length_cons]
    omega

/-- Setting an element that satisfies a property preserves a universal
property over the list. -/
theorem mem_set_preserve {α : Type} (P : α → Prop) (l : List α) (n : Nat) (x : α)
    (hl : ∀ a ∈ l, P a) (hx : P x) : ∀ a ∈ l.set n x, P a := by
  intro a ha
  rcases List.mem_or_eq_of_mem_set ha with h | h
  · exact hl a h
  · exact h ▸ hx

/-- An in-range `getD` is a member. -/
theorem getD_mem_of_lt {α : Type} (l : List α) (n : Nat) (d : α) (h : n < l.length) :
    l.getD n d ∈ l := by
  rw [List.getD_eq_getElem l d h]
  exact List.getElem_mem h

/-- `foldl` preserves an invariant preserved by every step over the
folded list. -/
theorem foldl_invariant {α β : Type} (P : α → Prop) (f : α → β → α) :
    ∀ l : List β, (∀ a b, b ∈ l → P a → P (f a b)) → ∀ a, P a → P (l.foldl f a) := by
  intro l
  induction l with
  | nil =>
    intro _ a ha
    exact ha
  | cons x xs ih =>
    intro hstep a ha
    rw [List.foldl_cons]
    exact ih (fun a b hb hpa => hstep a b (List.mem_cons_of_mem x hb) hpa) _
      (hstep a x (List.mem_cons_self x xs) ha)

/-- Replacing one cell of a row with a one-visible-character cell keeps
the row well formed. -/
theorem rowOK_set_modify (w : Nat) (row : List (List Cell)) (n : Nat) (x : List Cell)
    (hr : rowOK w row) (hx : slen x = 1) : rowOK w (row.set n x) :=
  ⟨by simp [List.length_set, hr.1], mem_set_preserve _ _ _ _ hr.2 hx⟩

/-- An in-range cell of a well-formed row has one visible character. -/
theorem rowOK_getD_slen (w : Nat) (row : List (List Cell)) (n : Nat)
    (hr : rowOK w row) (hn : n < w) : slen (row.getD n []) = 1 :=
  hr.2 _ (getD_mem_of_lt _ _ _ (by rw [hr.1]; exact hn))

/-- A Python-indexed cell write with a one-visible-character cell keeps
the row well formed. -/
theorem rowOK_pySetL (w : Nat) (row : List (List Cell)) (i : Int) (x : List Cell)
    (hr : rowOK w row) (hx : slen x = 1) : rowOK w (pySetL row i x) := by
  unfold pySetL
  split
  · exact rowOK_set_modify w row _ x hr hx
  · split
    · exact rowOK_set_modify w row _ x hr hx
    · exact hr

/-- Replacing one row of a buffer with a well-formed row keeps the
buffer well formed. -/
theorem barsOK_set (w h : Nat) (bars : List (List (List Cell))) (n : Nat)
    (row : List (List Cell)) (hb : barsOK w h bars) (hrow : rowOK w row) :
    barsOK w h (bars.set n row) :=
  ⟨by simp [List.length_set, hb.1], mem_set_preserve _ _ _ _ hb.2 hrow⟩

/-- Drawing one column preserves well-formedness of the buffer. -/
theorem barsOK_writeVal (w h : Nat) (i : Int) (v : ℚ) (bars : List (List (List Cell)))
    (hb : barsOK w h bars) : barsOK w h (writeVal h i v bars) := by
  unfold writeVal
  refine foldl_invariant _ _ (List.range h) ?_ bars hb
  intro bs j hj hbs
  have hjh : j < h := List.mem_range.mp hj
  have hr : h - j - 1 < bs.length := by rw [hbs.1]; omega
  have hrow : rowOK w (bs.getD (h - j - 1) []) := hbs.2 _ (getD_mem_of_lt _ _ _ hr)
  exact barsOK_set w h bs _ _ hbs (rowOK_pySetL w _ i _ hrow rfl)

/-- Drawing a whole series preserves well-formedness of the buffer. -/
theorem barsOK_writeSeries (w h : Nat) (offset : Int) (ys : List ℚ)
    (bars : List (List (List Cell))) (hb : barsOK w h bars) :
    barsOK w h (writeSeries h offset ys bars) := by
  unfold writeSeries
  refine foldl_invariant _ _ ys.enum ?_ bars hb
  intro bs iv _ hbs
  exact barsOK_writeVal w h _ _ bs hbs

/-- Colouring one row preserves its well-formedness (the colour spans
only prepend or append zero-width escapes, and the gutter cell is
replaced by a single space). -/
theorem rowOK_colorizeRow (w off : Nat) (row : List (List Cell))
    (hr : rowOK w row) (hoffw : off + 1 < w) :
    rowOK w (colorizeRow off w row) := by
  have h1 : rowOK w (row.set 0 (escRED :: row.getD 0 [])) :=
    rowOK_set_modify w row 0 _ hr
      (by rw [slen_cons, rowOK_getD_slen w row 0 hr (by omega)]; rfl)
  let r1 := row.set 0 (escRED :: row.getD 0 [])
  have h2 : rowOK w (r1.set (off - 1) (r1.getD (off - 1) [] ++ [escReset])) :=
    rowOK_set_modify w r1 (off - 1) _ h1
      (by rw [slen_append, rowOK_getD_slen w r1 (off - 1) h1 (by omega)]; rfl)
  let r2 := r1.set (off - 1) (r1.getD (off - 1) [] ++ [escReset])
  have h3 : rowOK w (r2.set off [Cell.vis ' ']) :=
    rowOK_set_modify w r2 off _ h2 rfl
  let r3 := r2.set off [Cell.vis ' ']
  have h4 : rowOK w (r3.set (off + 1) (escGREEN :: r3.getD (off + 1) [])) :=
    rowOK_set_modify w r3 (off + 1) _ h3
      (by rw [slen_cons, rowOK_getD_slen w r3 (off + 1) h3 (by omega)]; rfl)
  let r4 := r3.set (off + 1) (escGREEN :: r3.getD (off + 1) [])
  have h5 : rowOK w (r4.set (w - 1) (r4.getD (w - 1) [] ++ [escReset])) :=
    rowOK_set_modify w r4 (w - 1) _ h4
      (by rw [slen_append, rowOK_getD_slen w r4 (w - 1) h4 (by omega)]; rfl)
  exact h5

/-- Colouring the whole buffer preserves its well-formedness. -/
theorem barsOK_colorize (w h off : Nat) (bars : List (List (List Cell)))
    (hb : barsOK w h bars) (hoffw : off + 1 < w) :
    barsOK w h (colorize h off bars) := by
  unfold colorize
  refine foldl_invariant _ _ (List.range h) ?_ bars hb
  intro bs j hj hbs
  have hjh : j < h := List.mem_range.mp hj
  have hlen0 : 0 < bs.length := by rw [hbs.1]; omega
  have hw0 : (bs.getD 0 []).length = w := (hbs.2 _ (getD_mem_of_lt _ _ _ hlen0)).1
  have hrowj : rowOK w (bs.getD j []) :=
    hbs.2 _ (getD_mem_of_lt _ _ _ (by rw [hbs.1]; omega))
  rw [hw0]
  exact barsOK_set w h bs j _ hbs (rowOK_colorizeRow w off _ hrowj hoffw)

/-- The initial all-spaces buffer is well formed. -/
theorem barsOK_init (w h : Nat) :
    barsOK w h (List.replicate h (List.replicate w ([Cell.vis ' '] : List Cell))) := by
  refine ⟨by simp, ?_⟩
  intro row hrow
  rw [List.eq_of_mem_replicate hrow]
  refine ⟨by simp, ?_⟩
  intro c hc
  rw [List.eq_of_mem_replicate hc]
  rfl

/-- slen of a singleton. -/
theorem slen_single (x : Cell) : slen [x] = cellVis x := rfl

/-- The header text is 76 columns wide. -/
theorem slen_headerText : slen headerText = 76 := rfl

/-- The top border is exactly `cols` wide. -/
theorem slen_topBorder (cols : Nat) (hc : 2 ≤ cols) : slen (topBorder cols) = cols := by
  unfold topBorder
  rw [slen_append, slen_append, slen_replicate_vis]
  simp only [slen_single, cellVis]
  omega

/-- The bottom border is exactly `cols` wide. -/
theorem slen_bottomBorder (cols : Nat) (hc : 2 ≤ cols) : slen (bottomBorder cols) = cols := by
  unfold bottomBorder
  rw [slen_append, slen_append, slen_replicate_vis]
  simp only [slen_single, cellVis]
  omega

/-- A padded text line is exactly `cols` wide whenever the text and the
two border glyphs fit. -/
theorem slen_textLine (cols : Nat) (text : List Cell) (h : slen text + 2 ≤ cols) :
    slen (textLine cols text) = cols := by
  unfold textLine
  rw [slen_append, slen_append, slen_append, slen_spacesC]
  simp only [slen_single, vbarC, cellVis]
  omega

/-- The separator line is exactly `cols` wide for `cols ≥ 79`. -/
theorem slen_sepLine (cols : Nat) (hc : 79 ≤ cols) : slen (sepLine cols) = cols := by
  unfold sepLine
  rw [slen_append, slen_append, slen_append, slen_replicate_vis,
    show slen sepText = 77 from rfl, show pyLenC sepText = 77 from rfl]
  simp only [slen_single, vbarC, cellVis]
  omega

/-- A bar line built from a well-formed row is exactly `cols` wide: the
raw length of the joined row is at least its visual width, so the
`len`-based padding adds nothing. -/
theorem slen_barLine (cols : Nat) (row : List (List Cell)) (hr : rowOK (cols - 2) row)
    (hc : 2 ≤ cols) : slen (barLine cols row) = cols := by
  unfold barLine
  have hflat : slen row.flatten = cols - 2 := by
    rw [slen_flatten_ones row hr.2, hr.1]
  have hpy : cols - 2 ≤ pyLenC row.flatten := hflat ▸ slen_le_pyLenC row.flatten
  rw [slen_append, slen_append, slen_append, slen_spacesC, hflat]
  simp only [slen_single, vbarC, cellVis]
  omega

/-- A vertical padding line is exactly `cols` wide. -/
theorem slen_padLine (cols : Nat) (hc : 2 ≤ cols) : slen (padLine cols) = cols := by
  unfold padLine
  rw [slen_append, slen_append, slen_spacesC]
  simp only [slen_single, vbarC, cellVis]
  omega

/-- The data text is 76 columns wide whenever the interface name fits in
its 28-column field and the four formatted rates fit in their 10-column
fields. -/
theorem slen_dataText (nic r1 p1 t1 p2 : List Char) (hn : nic.length ≤ 28)
    (h1 : r1.length ≤ 10) (h2 : p1.length ≤ 10) (h3 : t1.length ≤ 10)
    (h4 : p2.length ≤ 10) : slen (dataText nic r1 p1 t1 p2) = 76 := by
  unfold dataText
  simp only [slen_append, slen_single, slen_visStr, escYELLOW, escRED, escGREEN, escReset,
    cellVis]
  rw [length_pyLJust 28 nic hn, length_pyRJust 10 r1 h1, length_pyRJust 10 p1 h2,
    length_pyRJust 10 t1 h3, length_pyRJust 10 p2 h4]
  simp only [show (" │ ".toList).length = 3 from rfl]

/-- C3 amended: provided the terminal is at least 79 columns wide (so
the fixed header and separator texts fit), the interface name fits its
28-column field, each formatted rate string fits its 10-column field,
and the two series fit the history-window capacity, every line of the
rendered frame has visual width exactly `cols` — escape sequences
contribute zero width. -/
theorem c3_amended (cols rows : Nat) (nic r1 p1 t1 p2 : List Char) (yq y2q : List ℚ)
    (hc : 79 ≤ cols) (hnic : nic.length ≤ 28) (hr1 : r1.length ≤ 10) (hp1 : p1.length ≤ 10)
    (ht1 : t1.length ≤ 10) (hp2 : p2.length ≤ 10)
    (hy : yq.length ≤ cols / 2 - 1) (hy2 : y2q.length ≤ cols / 2 - 1) :
    ∀ l ∈ frameLines cols rows nic r1 p1 t1 p2 yq y2q, slen l = cols := by
  have hc2 : 2 ≤ cols := by omega
  have hbars : ∀ hgt : Nat, barsOK (cols - 2) hgt
      (colorize hgt ((cols - 2) / 2 - 1)
        (writeSeries hgt ((((cols - 2) / 2 : Nat) : Int) - 2) (scaleSeries hgt y2q)
          (writeSeries hgt ((cols : Int) - 2 - 1) (scaleSeries hgt yq)
            (List.replicate hgt (List.replicate (cols - 2) [Cell.vis ' ']))))) := by
    intro hgt
    refine barsOK_colorize _ _ _ _ ?_ ?_
    · exact barsOK_writeSeries _ _ _ _ _ (barsOK_writeSeries _ _ _ _ _ (barsOK_init _ _))
    · omega
  intro l hl
  unfold frameLines at hl
  simp only [List.mem_append, List.mem_cons, List.mem_map, List.mem_replicate,
    List.not_mem_nil, or_false] at hl
  rcases hl with (((h | h | h | h) | ⟨row, hrow, hbl⟩) | ⟨-, h⟩) | h
  · rw [h]
    exact slen_topBorder cols hc2
  · rw [h]
    exact slen_textLine cols headerText (by rw [slen_headerText]; omega)
  · rw [h]
    exact slen_textLine cols (dataText nic r1 p1 t1 p2)
      (by rw [slen_dataText nic r1 p1 t1 p2 hnic hr1 hp1 ht1 hp2]; omega)
  · rw [h]
    exact slen_sepLine cols hc
  · rw [← hbl]
    exact slen_barLine cols row ((hbars _).2 row hrow) hc2
  · rw [h]
    exact slen_padLine cols hc2
  · rw [h]
    exact slen_bottomBorder cols hc2

set_option maxRecDepth 100000 in
/-- C3 counterexample: on a 10-column, 7-row terminal the header line
has visual width 78 (the fixed header text is 76 columns wide and the
padding count `cols-2-slen(text)` truncates at zero, never clipping the
text), so not every rendered line has width equal to the column count. -/
theorem c3_counterexample :
    ¬ (∀ l ∈ frameLines 10 7 "mlx5_0".toList "0.00B".toList "0.00".toList
        "0.00B".toList "0.00".toList [0] [0], slen l = 10) := by
  intro hall
  have hlen : 1 < (frameLines 10 7 "mlx5_0".toList "0.00B".toList "0.00".toList
      "0.00B".toList "0.00".toList [0] [0]).length := by
    rw [show (frameLines 10 7 "mlx5_0".toList "0.00B".toList "0.00".toList
      "0.00B".toList "0.00".toList [0] [0]).length = 7 from rfl]
    omega
  have h := hall _ (getD_mem_of_lt _ 1 [] hlen)
  rw [show (frameLines 10 7 "mlx5_0".toList "0.00B".toList "0.00".toList
    "0.00B".toList "0.00".toList [0] [0]).getD 1 [] = textLine 10 headerText from rfl] at h
  rw [show slen (textLine 10 headerText) = 78 from rfl] at h
  omega

set_option maxRecDepth 100000 in
/-- C3 amended witness: a concrete 79-column frame whose first line has
visual width exactly 79. -/
theorem c3_amended_witness :
    slen ((frameLines 79 7 "mlx5_0".toList "0.00B".toList "0.00".toList "0.00B".toList
        "0.00".toList [] []).getD 0 []) = 79 :=
  c3_amended 79 7 "mlx5_0".toList "0.00B".toList "0.00".toList "0.00B".toList "0.00".toList
    [] [] (by omega) (by decide) (by decide) (by decide) (by decide) (by decide)
    (by decide) (by decide) _
    (getD_mem_of_lt _ 0 []
      (by rw [show (frameLines 79 7 "mlx5_0".toList "0.00B".toList "0.00".toList
        "0.00B".toList "0.00".toList [] []).length = 7 from rfl]; omega))
